import Mathlib

set_option autoImplicit false

/-!
Shallow embedding of the comment-analysis pipeline of `server.js`
(final handler, the `POST /api/analyze` route): the JavaScript string
primitives the code relies on, the theme-classification batching loop,
the malformed-response fallback, the keyword-based fallback classifier,
the business-context sentiment rules, the majority-based group
sentiment, and the grouping/aggregation step.  Numbers that JavaScript
stores as floats (confidences, comparative scores) are modelled as
rationals; the constants involved are exact decimal literals that are
never combined arithmetically in the properties below.
-/

/-- JavaScript `String.prototype.startsWith`, on character lists. -/
def startsWithChars : List Char → List Char → Bool
  | [], _ => true
  | _ :: _, [] => false
  | p :: ps, c :: cs => p == c && startsWithChars ps cs

/-- JavaScript `String.prototype.includes`, on character lists:
`containsChars pat s` is true when `pat` occurs contiguously in `s`. -/
def containsChars (pat : List Char) : List Char → Bool
  | [] => startsWithChars pat []
  | c :: cs => startsWithChars pat (c :: cs) || containsChars pat cs

/-- JavaScript `s.includes(pat)`. -/
def strIncludes (s pat : String) : Bool :=
  containsChars pat.data s.data

/-- JavaScript `s.toLowerCase()` (ASCII case folding, which covers every
string the code lowercases: keyword tables and comment text). -/
def toLowerCaseStr (s : String) : String :=
  ⟨s.data.map Char.toLower⟩

/-! ### Fallback keyword classifier (source: `fallbackThemes` and the
`comments.forEach` keyword-matching loop in the catch branch). -/

/-- One entry of the fixed built-in fallback theme table. -/
structure FallbackTheme where
  name : String
  keywords : List String
deriving DecidableEq

/-- The fixed fallback theme table of the source. -/
def fallbackThemes : List FallbackTheme :=
  [⟨"Value and Pricing",
    ["value", "price", "cost", "expensive", "cheap", "worth", "money", "budget"]⟩,
   ⟨"Service Quality",
    ["service", "staff", "help", "friendly", "rude", "professional", "assistance"]⟩,
   ⟨"Amenities and Features",
    ["pool", "gym", "spa", "restaurant", "room", "facility", "amenity", "activity"]⟩,
   ⟨"Experience and Satisfaction",
    ["experience", "enjoy", "satisfied", "disappointed", "amazing", "terrible", "love", "hate"]⟩,
   ⟨"General Feedback",
    ["overall", "general", "think", "feel", "opinion", "recommend", "suggest"]⟩]

/-- `theme.keywords.filter(keyword => lowerComment.includes(keyword.toLowerCase())).length`:
the number of table keywords occurring in the lowercased comment. -/
def themeMatches (lowerComment : String) (t : FallbackTheme) : Nat :=
  (t.keywords.filter (fun keyword => strIncludes lowerComment (toLowerCaseStr keyword))).length

/-- The `bestMatch` / `maxMatches` accumulation loop of the fallback
classifier: starts at `('Other', 0)` and replaces the pair whenever a
theme has strictly more keyword matches. -/
def bestFallbackMatch (lowerComment : String) : String × Nat :=
  fallbackThemes.foldl
    (fun acc t =>
      let matchCount := themeMatches lowerComment t
      if matchCount > acc.2 then (t.name, matchCount) else acc)
    ("Other", 0)

/-- The per-comment fallback classification: assigned theme name and the
confidence pushed with it (`maxMatches > 0 ? 0.7 : 0.3`). -/
def classifyCommentFallback (comment : String) : String × ℚ :=
  let lowerComment := toLowerCaseStr comment
  let best := bestFallbackMatch lowerComment
  (best.1, if best.2 > 0 then 7/10 else 3/10)

/-! ### Business-context sentiment rules (identical in the LLM path and
the fallback path of the source). -/

/-- The negative trigger words of the business-context rules. -/
def negativeTriggerWords : List String :=
  ["expensive", "costly", "overpriced", "disappointed", "terrible", "awful",
   "bad", "worst", "hate"]

/-- The positive trigger words of the business-context rules. -/
def positiveTriggerWords : List String :=
  ["great", "excellent", "amazing", "love", "perfect", "wonderful",
   "best", "fantastic"]

/-- Per-member sentiment classification: the trigger-word chain first
(negative words, then positive words), then the comparative-score
thresholds `> 0.1` / `< -0.1`, else `'neutral'`.  The external lexical
scorer is passed in as its `comparative` output. -/
def classifyCommentSentiment (commentText : String) (comparative : ℚ) : String :=
  let text := toLowerCaseStr commentText
  if negativeTriggerWords.any (fun w => strIncludes text w) then "negative"
  else if positiveTriggerWords.any (fun w => strIncludes text w) then "positive"
  else if comparative > 1/10 then "positive"
  else if comparative < -(1/10) then "negative"
  else "neutral"

/-! ### Group sentiment majority (source: `sentimentCounts` and
`sentimentClassification`). -/

/-- The three member-sentiment counters of one theme group. -/
structure SentimentCounts where
  positive : Nat
  negative : Nat
  neutral : Nat
deriving DecidableEq

/-- `sentimentCounts`: filter-and-count over the members' sentiment
classifications. -/
def sentimentCountsOf (themeSentiments : List String) : SentimentCounts :=
  ⟨(themeSentiments.filter (fun s => s == "positive")).length,
   (themeSentiments.filter (fun s => s == "negative")).length,
   (themeSentiments.filter (fun s => s == "neutral")).length⟩

/-- `sentimentClassification`: positive when strictly ahead of both other
counters, negative when strictly ahead of both other counters, otherwise
neutral. -/
def sentimentClassificationOf (c : SentimentCounts) : String :=
  if c.positive > c.negative ∧ c.positive > c.neutral then "positive"
  else if c.negative > c.positive ∧ c.negative > c.neutral then "negative"
  else "neutral"

/-! ### Classification entries and theme grouping (source: the
`commentClassifications` array, `themeGroups` object and the
`commentClassifications.forEach` grouping loop). -/

/-- One identified theme as parsed from the discovery response. -/
structure IdentifiedTheme where
  name : String
  description : String
  keywords : List String
deriving DecidableEq

/-- One entry of a classification payload.  `themeName` and `confidence`
are optional because the payload is untrusted: a missing JSON field is
JavaScript `undefined`, modelled as `none`. -/
structure ClassificationEntry where
  commentIndex : Int
  themeName : Option String
  confidence : Option ℚ
deriving DecidableEq

/-- One member pushed into a theme group: the record text looked up by
index (`none` models `undefined` for an out-of-range index), the 0-based
index, and the defaulted confidence. -/
structure GroupMember where
  text : Option String
  originalIndex : Int
  confidence : ℚ
deriving DecidableEq

/-- One theme group.  The source also keeps a `commentIndices` array that
mirrors `comments.map(c => c.originalIndex)`; being redundant it is not
carried separately here. -/
structure ThemeGroup where
  name : String
  description : String
  keywords : List String
  comments : List GroupMember
deriving DecidableEq

/-- `themeGroups[themeName].comments.push(...)` for a `themeName` that is
an own key of the object: the first group carrying the key receives the
member.  On an absent key the state is returned unchanged; the
truthiness guard `if (themeGroups[themeName])` itself — including the
`Object.prototype` chain — is modelled in `groupStep`. -/
def pushToGroup (gs : List ThemeGroup) (key : String) (m : GroupMember) : List ThemeGroup :=
  match gs with
  | [] => []
  | g :: rest =>
    if g.name = key then { g with comments := g.comments ++ [m] } :: rest
    else g :: pushToGroup rest key m

deriving instance DecidableEq for Except

/-- `Object.values(themeGroups).filter(group => group.comments.length > 0)`. -/
def themeGroupsArray (gs : List ThemeGroup) : List ThemeGroup :=
  gs.filter (fun g => g.comments.length > 0)

/-- `const maxBatches = 10`. -/
def maxBatches : Nat := 10

/-- `batchSize = Math.max(50, Math.ceil(comments.length / maxBatches))`. -/
def batchSize (totalComments : Nat) : Nat :=
  max 50 ((totalComments + maxBatches - 1) / maxBatches)

/-- `actualBatches = Math.ceil(comments.length / batchSize)`, which is
also the number of iterations of the batching loop. -/
def actualBatches (totalComments : Nat) : Nat :=
  (totalComments + batchSize totalComments - 1) / batchSize totalComments

/-- One iteration of the batching loop: the delay awaited before issuing
the request (`if (i > 0) await ... 10000` — `none` when no delay is
awaited) and the slice `comments.slice(i, i + batchSize)`. -/
structure BatchStep where
  delayBeforeMs : Option Nat
  batch : List String
deriving DecidableEq

/-- The batching loop: iteration `b` works at offset `i = b * batchSize`. -/
def classificationBatchSteps (comments : List String) : List BatchStep :=
  (List.range (actualBatches comments.length)).map (fun b =>
    let i := b * batchSize comments.length
    ⟨if i > 0 then some 10000 else none,
     (comments.drop i).take (batchSize comments.length)⟩)

/-- `identifiedThemes[0]?.name || 'Uncategorized'`: the theme name used
for degraded classifications.  (When the first identified theme has the
empty string as name, `||` again yields `'Uncategorized'`.) -/
def degradedThemeName (identifiedThemes : List IdentifiedTheme) : String :=
  match identifiedThemes with
  | [] => "Uncategorized"
  | t :: _ => if t.name = "" then "Uncategorized" else t.name

/-- The fallback classifications synthesized for the batch starting at
offset `i` (`batch.map((comment, batchIndex) => ...)` in the JSON-error
handler, and the identical `batch.forEach` loops in the request-error
handlers): one entry per record of the batch, 1-based global
`commentIndex`, the degraded theme name, confidence `0.5`. -/
def degradedBatchClassifications (i : Nat) (batch : List String)
    (identifiedThemes : List IdentifiedTheme) : List ClassificationEntry :=
  (List.range batch.length).map (fun (batchIndex : Nat) =>
    ⟨(i : Int) + (batchIndex : Int) + 1, some (degradedThemeName identifiedThemes), some (1/2)⟩)

/-! ### Parsing classification payloads.

`JSON.parse(classificationResponse.content[0].text)` restricted to the
payload shape the classification prompt requests (and the only shape the
grouping code consumes): an object with a `classifications` array of
objects carrying `commentIndex` (integer), `themeName` (escape-free
string) and `confidence` (decimal number), in that field order, with
arbitrary JSON whitespace.  Any other input — in particular any
truncated payload — is rejected (`none`), exactly as `JSON.parse`
throws on it. -/

/-- Skip JSON whitespace. -/
def skipWs : List Char → List Char
  | c :: cs => if c = ' ' ∨ c = '\n' ∨ c = '\t' ∨ c = '\r' then skipWs cs else c :: cs
  | [] => []

/-- Consume an expected literal. -/
def expectChars : List Char → List Char → Option (List Char)
  | [], cs => some cs
  | p :: ps, c :: cs => if p = c then expectChars ps cs else none
  | _ :: _, [] => none

/-- Scan the body of a JSON string up to the closing quote. -/
def scanStringBody : List Char → Option (List Char × List Char)
  | [] => none
  | c :: cs =>
    if c = '\"' then some ([], cs)
    else match scanStringBody cs with
         | some (body, rest) => some (c :: body, rest)
         | none => none

/-- Parse a JSON string literal (no escape sequences). -/
def parseJsonString : List Char → Option (String × List Char)
  | '\"' :: cs => (scanStringBody cs).map (fun p => (⟨p.1⟩, p.2))
  | _ => none

/-- Take a maximal run of decimal digits. -/
def takeDigits : List Char → List Char × List Char
  | c :: cs =>
    if c.isDigit then
      let p := takeDigits cs
      (c :: p.1, p.2)
    else ([], c :: cs)
  | [] => ([], [])

/-- Numeric value of a digit run. -/
def digitsVal (ds : List Char) : Nat :=
  ds.foldl (fun n c => 10 * n + (c.toNat - 48)) 0

/-- Parse a JSON integer (optional minus sign, digit run). -/
def parseJsonInt (cs : List Char) : Option (Int × List Char) :=
  match cs with
  | '-' :: rest =>
    match takeDigits rest with
    | ([], _) => none
    | (ds, rest₂) => some (-(digitsVal ds : Int), rest₂)
  | _ =>
    match takeDigits cs with
    | ([], _) => none
    | (ds, rest) => some ((digitsVal ds : Int), rest)

/-- Parse a JSON decimal number (optional minus sign, digit run,
optional fraction), as an exact rational. -/
def parseJsonNumber (cs : List Char) : Option (ℚ × List Char) :=
  let signAndRest : Bool × List Char :=
    match cs with
    | '-' :: rest => (true, rest)
    | _ => (false, cs)
  match takeDigits signAndRest.2 with
  | ([], _) => none
  | (ds, rest) =>
    let intPart : ℚ := (digitsVal ds : ℚ)
    match rest with
    | '.' :: rest₂ =>
      match takeDigits rest₂ with
      | ([], _) => none
      | (fs, rest₃) =>
        let q := intPart + (digitsVal fs : ℚ) / ((10 : ℚ) ^ fs.length)
        some (if signAndRest.1 then -q else q, rest₃)
    | _ => some (if signAndRest.1 then -intPart else intPart, rest)

/-- Parse one element of the `classifications` array. -/
def parseClassificationEntry (cs₀ : List Char) : Option (ClassificationEntry × List Char) := do
  let cs ← expectChars "\x7b".data (skipWs cs₀)
  let cs ← expectChars "\"commentIndex\"".data (skipWs cs)
  let cs ← expectChars ":".data (skipWs cs)
  let (idx, cs) ← parseJsonInt (skipWs cs)
  let cs ← expectChars ",".data (skipWs cs)
  let cs ← expectChars "\"themeName\"".data (skipWs cs)
  let cs ← expectChars ":".data (skipWs cs)
  let (tn, cs) ← parseJsonString (skipWs cs)
  let cs ← expectChars ",".data (skipWs cs)
  let cs ← expectChars "\"confidence\"".data (skipWs cs)
  let cs ← expectChars ":".data (skipWs cs)
  let (conf, cs) ← parseJsonNumber (skipWs cs)
  let cs ← expectChars "\x7d".data (skipWs cs)
  some (⟨idx, some tn, some conf⟩, cs)

/-- Parse the remaining elements of the `classifications` array, fuelled
by the length of the unconsumed input. -/
def parseMoreEntries : Nat → List Char → Option (List ClassificationEntry × List Char)
  | fuel, cs =>
    match skipWs cs with
    | ']' :: rest => some ([], rest)
    | ',' :: rest =>
      match fuel with
      | 0 => none
      | f + 1 => do
        let (e, rest₂) ← parseClassificationEntry rest
        let (es, rest₃) ← parseMoreEntries f rest₂
        some (e :: es, rest₃)
    | _ => none

/-- `JSON.parse` of a classification payload (shape-restricted as
described above): `none` models the thrown `SyntaxError`. -/
def parseClassificationsPayload (raw : String) : Option (List ClassificationEntry) := do
  let cs ← expectChars "\x7b".data (skipWs raw.data)
  let cs ← expectChars "\"classifications\"".data (skipWs cs)
  let cs ← expectChars ":".data (skipWs cs)
  let cs ← expectChars "[".data (skipWs cs)
  match skipWs cs with
  | ']' :: rest => do
    let rest₂ ← expectChars "\x7d".data (skipWs rest)
    if skipWs rest₂ = [] then some [] else none
  | cs₂ => do
    let (e, rest) ← parseClassificationEntry cs₂
    let (es, rest₂) ← parseMoreEntries cs₂.length rest
    let rest₃ ← expectChars "\x7d".data (skipWs rest₂)
    if skipWs rest₃ = [] then some (e :: es) else none

/-! ### Handling one batch's response (source: the inner
`try JSON.parse ... catch jsonError` and the outer `catch batchError`
with its rate-limit retry). -/

/-- The classifications a successfully-issued batch request contributes:
the parsed entries, or — when `JSON.parse` throws — the degraded
fallback entries for the batch starting at corpus offset `i`. -/
def handleClassificationResponse (rawText : String) (i : Nat) (batch : List String)
    (identifiedThemes : List IdentifiedTheme) : List ClassificationEntry :=
  match parseClassificationsPayload rawText with
  | some entries => entries
  | none => degradedBatchClassifications i batch identifiedThemes

/-- Outcome of one `anthropic.messages.create` call: the response text,
or the message of the error it threw. -/
inductive RequestOutcome where
  | success (rawText : String)
  | failure (message : String)
deriving DecidableEq

/-- `batchError.message.includes('429') || batchError.message.includes('rate_limit_error')`. -/
def isRateLimitError (message : String) : Bool :=
  strIncludes message "429" || strIncludes message "rate_limit_error"

/-- What processing one batch contributes: the classifications pushed
onto `commentClassifications`, the cooldown delays awaited (in ms,
beyond the inter-batch throttle), and whether a retry request was
issued. -/
structure BatchOutcome where
  classifications : List ClassificationEntry
  cooldownsMs : List Nat
  retried : Bool
deriving DecidableEq

/-- One batch's request/degrade cycle.  `firstAttempt` is the outcome of
the initial request; `retryAttempt` is the outcome of the retry request,
consulted only when the first attempt failed with a rate-limit signal.
On a rate-limited first attempt the code awaits 60000 ms and retries
once; a retry whose payload fails to parse throws inside the retry `try`
and is caught by `retryError`, degrading the batch.  Any other failure
degrades immediately. -/
def processBatch (firstAttempt retryAttempt : RequestOutcome) (i : Nat) (batch : List String)
    (identifiedThemes : List IdentifiedTheme) : BatchOutcome :=
  match firstAttempt with
  | .success rawText =>
    ⟨handleClassificationResponse rawText i batch identifiedThemes, [], false⟩
  | .failure message =>
    if isRateLimitError message then
      match retryAttempt with
      | .success rawText =>
        match parseClassificationsPayload rawText with
        | some entries => ⟨entries, [60000], true⟩
        | none => ⟨degradedBatchClassifications i batch identifiedThemes, [60000], true⟩
      | .failure _ => ⟨degradedBatchClassifications i batch identifiedThemes, [60000], true⟩
    else
      ⟨degradedBatchClassifications i batch identifiedThemes, [], false⟩

/-- Modelled from the spec: the response repair the specification
describes — "if the raw payload does not end with a closing brace (a
sign of truncation), attempt to truncate to the last complete entry
(last occurrence of a completed array element) and re-close the JSON
structure"; repair is impossible when no completed element exists.
This operation has no counterpart in the source, which routes every
unparsable payload straight to the degraded fallback. -/
def repairTruncatedPayload (raw : String) : Option String :=
  if raw.data.getLast? = some '\x7d' then some raw
  else
    let kept := (raw.data.reverse.dropWhile (fun c => c ≠ '\x7d')).reverse
    if kept = [] then none
    else some ⟨kept ++ "]\x7d".data⟩

/-! ### The fallback (catch-branch) classification pipeline and the
final topic records. -/

/-- `themeGroups` initialization of the fallback branch: one empty group
per fallback theme (with the generated description
`Comments related to ${theme.name.toLowerCase()}`), then `'Other'`. -/
def initFallbackGroups : List ThemeGroup :=
  fallbackThemes.map
    (fun t => ⟨t.name, "Comments related to " ++ toLowerCaseStr t.name, t.keywords, []⟩) ++
    [⟨"Other", "Comments that do not fit into specific categories", [], []⟩]

/-- The fallback `comments.forEach((comment, index) => ...)` loop:
classify each comment by keyword matching and push it into its best
matching group. -/
def fallbackGroupComments (comments : List String) : List ThemeGroup :=
  comments.enum.foldl
    (fun gs p =>
      let best := classifyCommentFallback p.2
      pushToGroup gs best.1 ⟨some p.2, (p.1 : Int), best.2⟩)
    initFallbackGroups

/-- JavaScript `Math.round` on the rational modelling of the involved
floats. -/
def jsRound (q : ℚ) : Int :=
  Int.floor (q + 1/2)

/-- The `themeSentiments` list of one group: the business-context rules
per member, with the external scorer's `comparative` output supplied by
`comparative`.  A member whose looked-up text is `undefined` makes the
`sentiment()` call throw; the surrounding `catch` then appends one
neutral entry per member after the entries already pushed, exactly as in
the source. -/
def themeSentimentsOf (comparative : String → ℚ) (members : List GroupMember) : List String :=
  let scoredPart := members.takeWhile (fun m => m.text.isSome)
  let scored := scoredPart.map
    (fun m => classifyCommentSentiment (m.text.getD "") (comparative (m.text.getD "")))
  if scoredPart.length = members.length then scored
  else scored ++ members.map (fun _ => "neutral")

/-- The per-theme result record.  Display-only fields that no claim
consults (`llmDescription`, `words`, `score`, the distribution
percentages, `avgWordCount`, `sampleQuotes`, the raw member list) are
not carried. -/
structure Topic where
  topicId : Nat
  title : String
  volume : Nat
  percentage : Int
  sentimentClassification : String
  sentimentCounts : SentimentCounts
  confidence : Int
  businessImpact : String
  enhancedByAI : Bool
deriving DecidableEq

/-- Building one topic from one (non-empty) theme group, shared verbatim
by the LLM and fallback branches up to the `enhancedByAI` flag. -/
def topicOfGroup (comparative : String → ℚ) (totalComments : Nat) (enhanced : Bool)
    (index : Nat) (group : ThemeGroup) : Topic :=
  let themeSentiments := themeSentimentsOf comparative group.comments
  let counts := sentimentCountsOf themeSentiments
  let sentimentClassification := sentimentClassificationOf counts
  let volume := group.comments.length
  let percentage := jsRound ((volume : ℚ) / (totalComments : ℚ) * 100)
  { topicId := index + 1
    title := group.name
    volume := volume
    percentage := percentage
    sentimentClassification := sentimentClassification
    sentimentCounts := counts
    confidence := jsRound ((group.comments.map (fun c => c.confidence)).sum / (volume : ℚ) * 100)
    businessImpact :=
      if sentimentClassification = "negative" ∧ percentage > 10 then "high"
      else if percentage > 15 then "medium"
      else "low"
    enhancedByAI := enhanced }

/-- `finalTopics` of the fallback branch: one topic per non-empty
fallback group, `enhancedByAI: false`. -/
def finalTopicsFallback (comparative : String → ℚ) (comments : List String) : List Topic :=
  (themeGroupsArray (fallbackGroupComments comments)).enum.map
    (fun p => topicOfGroup comparative comments.length false p.1 p.2)

/-- `impactOrder = { high: 3, medium: 2, low: 1 }` (every constructed
topic carries one of the three tiers, so the default is unreachable). -/
def impactOrder (impact : String) : Nat :=
  if impact = "high" then 3 else if impact = "medium" then 2
  else if impact = "low" then 1 else 0

/-- The sort comparator of `cleanTopics.sort(...)` as the "sorts no
later than" relation: higher business impact first, ties broken by
higher volume. -/
def topicBefore (a b : Topic) : Bool :=
  impactOrder b.businessImpact < impactOrder a.businessImpact ||
    (impactOrder a.businessImpact = impactOrder b.businessImpact && b.volume ≤ a.volume)

/-- `cleanTopics` after its sort (V8's `Array.prototype.sort` is stable,
as is insertion sort). -/
def cleanTopicsSorted (topics : List Topic) : List Topic :=
  List.insertionSort (fun a b => topicBefore a b = true) topics

/-- The response fields of the handler the claims consult. -/
structure AnalysisOutcome where
  topics : List Topic
  totalComments : Nat
  aiEnhanced : Bool
deriving DecidableEq

/-- The theme-classification stage of the handler.  `processedCount`
stands for `processedComments.length` (its tokenizer and stop-word list
are external collaborators); `llmBranch` stands for the topics the `try`
branch produces when the Anthropic client is configured, supplied as a
parameter because they depend on external responses.  When the client is
not configured the `throw` at the top of the `try` routes control to the
`catch`, i.e. to the fallback branch, and that run still succeeds;
`metadata.aiEnhanced` is `cleanTopics.some(t => t.enhancedByAI)`.

Two fatal gates run before that `try` and are caught only by the outer
error handler (an HTTP 500 failure, modelled as `Except.error`): the
oversized-corpus gate `estimatedTokens = comments.length * 20;
if (estimatedTokens > 50000) throw` (the thrown message interpolates the
counts; the model keeps its fixed head), then the processable-records
gate `processedComments.length < 1`. -/
def runAnalysis (anthropicConfigured : Bool) (processedCount : Nat) (llmBranch : List Topic)
    (comparative : String → ℚ) (comments : List String) : Except String AnalysisOutcome :=
  if comments.length * 20 > 50000 then
    .error "Dataset too large"
  else if processedCount < 1 then
    .error "Not enough valid comments to analyze."
  else
    let finalTopics :=
      if anthropicConfigured then llmBranch else finalTopicsFallback comparative comments
    let sorted := cleanTopicsSorted finalTopics
    .ok ⟨sorted, comments.length, sorted.any (fun t => t.enhancedByAI)⟩

/-- The the-sum-of-volumes observable of a topic list. -/
def topicsVolume (topics : List Topic) : Nat :=
  (topics.map (fun t => t.volume)).sum

/-! ### Helper lemmas about grouping -/

theorem pushToGroup_names (gs : List ThemeGroup) (key : String) (m : GroupMember) :
    (pushToGroup gs key m).map (fun g => g.name) = gs.map (fun g => g.name) := by
  induction gs with
  | nil => rfl
  | cons g rest ih =>
    simp only [pushToGroup]
    split
    · simp
    · simp [ih]

theorem pushToGroup_volume_sum (gs : List ThemeGroup) (key : String) (m : GroupMember) :
    ((pushToGroup gs key m).map (fun g => g.comments.length)).sum
      = (gs.map (fun g => g.comments.length)).sum
        + (if key ∈ gs.map (fun g => g.name) then 1 else 0) := by
  induction gs with
  | nil => simp [pushToGroup]
  | cons g rest ih =>
    simp only [pushToGroup]
    by_cases h : g.name = key
    · simp only [if_pos h, List.map_cons, List.sum_cons, List.length_append,
        List.length_cons, List.length_nil, List.mem_cons, h]
      simp
      omega
    · simp only [if_neg h, List.map_cons, List.sum_cons, ih, List.mem_cons]
      have : ¬ key = g.name := fun hk => h hk.symm
      simp [this]
      omega

theorem themeGroupsArray_volume_sum (gs : List ThemeGroup) :
    ((themeGroupsArray gs).map (fun g => g.comments.length)).sum
      = (gs.map (fun g => g.comments.length)).sum := by
  induction gs with
  | nil => rfl
  | cons g rest ih =>
    simp only [themeGroupsArray] at ih ⊢
    by_cases h : g.comments.length > 0
    · simp [List.filter_cons, h, ih]
    · have h0 : g.comments.length = 0 := by omega
      simp [List.filter_cons, h, ih, h0]

theorem foldl_push_volume_sum {α : Type} (key : α → String) (mem : α → GroupMember)
    (xs : List α) :
    ∀ gs : List ThemeGroup,
      ((xs.foldl (fun gs x => pushToGroup gs (key x) (mem x)) gs).map
          (fun g => g.comments.length)).sum
        = (gs.map (fun g => g.comments.length)).sum
          + xs.countP (fun x => decide (key x ∈ gs.map (fun g => g.name))) := by
  induction xs with
  | nil => intro gs; simp
  | cons x rest ih =>
    intro gs
    simp only [List.foldl_cons, List.countP_cons]
    rw [ih (pushToGroup gs (key x) (mem x)), pushToGroup_names, pushToGroup_volume_sum]
    by_cases h : key x ∈ gs.map (fun g => g.name)
    · simp [h]
      omega
    · simp [h]

theorem foldl_push_names {α : Type} (key : α → String) (mem : α → GroupMember)
    (xs : List α) :
    ∀ gs : List ThemeGroup,
      (xs.foldl (fun gs x => pushToGroup gs (key x) (mem x)) gs).map (fun g => g.name)
        = gs.map (fun g => g.name) := by
  induction xs with
  | nil => intro gs; rfl
  | cons x rest ih =>
    intro gs
    simp only [List.foldl_cons]
    rw [ih, pushToGroup_names]

theorem topicsVolume_enum_map (comparative : String → ℚ) (total : Nat) (enhanced : Bool)
    (gs : List ThemeGroup) :
    topicsVolume (gs.enum.map (fun p => topicOfGroup comparative total enhanced p.1 p.2))
      = (gs.map (fun g => g.comments.length)).sum := by
  unfold topicsVolume
  rw [List.map_map]
  have h1 : ((fun t : Topic => t.volume) ∘ fun p : Nat × ThemeGroup =>
      topicOfGroup comparative total enhanced p.1 p.2)
      = fun p : Nat × ThemeGroup => p.2.comments.length := rfl
  rw [h1, show (fun p : Nat × ThemeGroup => p.2.comments.length)
      = (fun g : ThemeGroup => g.comments.length) ∘ Prod.snd from rfl,
    ← List.map_map, List.enum_map_snd]

theorem topicsVolume_sorted (topics : List Topic) :
    topicsVolume (cleanTopicsSorted topics) = topicsVolume topics := by
  unfold topicsVolume cleanTopicsSorted
  exact ((List.perm_insertionSort (fun a b : Topic => topicBefore a b = true) topics).map
    (fun t => t.volume)).sum_eq

theorem any_sorted (topics : List Topic) (p : Topic → Bool) :
    (cleanTopicsSorted topics).any p = topics.any p := by
  unfold cleanTopicsSorted
  have hperm := List.perm_insertionSort (fun a b : Topic => topicBefore a b = true) topics
  cases hb : topics.any p with
  | false =>
    rw [List.any_eq_false] at hb ⊢
    intro x hx
    exact hb x (hperm.mem_iff.mp hx)
  | true =>
    rw [List.any_eq_true] at hb ⊢
    obtain ⟨x, hx, hpx⟩ := hb
    exact ⟨x, hperm.mem_iff.mpr hx, hpx⟩

theorem foldBest_fst_mem (lc : String) (ts : List FallbackTheme) :
    ∀ acc : String × Nat,
      (ts.foldl (fun acc t =>
          if themeMatches lc t > acc.2 then (t.name, themeMatches lc t) else acc) acc).1
        ∈ acc.1 :: ts.map (fun t => t.name) := by
  induction ts with
  | nil => intro acc; simp
  | cons t rest ih =>
    intro acc
    simp only [List.foldl_cons]
    by_cases h : themeMatches lc t > acc.2
    · rw [if_pos h]
      have hm := ih (t.name, themeMatches lc t)
      simp only [List.map_cons, List.mem_cons] at hm ⊢
      tauto
    · rw [if_neg h]
      have hm := ih acc
      simp only [List.map_cons, List.mem_cons] at hm ⊢
      tauto

theorem classifyCommentFallback_mem (comment : String) :
    (classifyCommentFallback comment).1
      ∈ "Other" :: fallbackThemes.map (fun t => t.name) :=
  foldBest_fst_mem (toLowerCaseStr comment) fallbackThemes ("Other", 0)

theorem volumes_fallbackGroupComments (comments : List String) :
    ((fallbackGroupComments comments).map (fun g => g.comments.length)).sum
      = comments.length := by
  have h := foldl_push_volume_sum
    (fun p : Nat × String => (classifyCommentFallback p.2).1)
    (fun p : Nat × String =>
      (⟨some p.2, (p.1 : Int), (classifyCommentFallback p.2).2⟩ : GroupMember))
    comments.enum initFallbackGroups
  have hinit : ((initFallbackGroups).map (fun g => g.comments.length)).sum = 0 := rfl
  have hnames : initFallbackGroups.map (fun g => g.name)
      = fallbackThemes.map (fun t => t.name) ++ ["Other"] := by
    simp [initFallbackGroups]
  simp only [hinit, hnames, Nat.zero_add] at h
  have hall : comments.enum.countP (fun p =>
      decide ((classifyCommentFallback p.2).1
        ∈ fallbackThemes.map (fun t => t.name) ++ ["Other"])) = comments.enum.length := by
    rw [List.countP_eq_length]
    intro p _
    have hm := classifyCommentFallback_mem p.2
    simp only [List.mem_cons] at hm
    simp only [decide_eq_true_eq, List.mem_append, List.mem_singleton]
    tauto
  rw [hall, List.enum_length] at h
  exact h

theorem foldBest_const_of_le (lc : String) (ts : List FallbackTheme) :
    ∀ acc : String × Nat, (∀ t ∈ ts, themeMatches lc t ≤ acc.2) →
      ts.foldl (fun acc t =>
        if themeMatches lc t > acc.2 then (t.name, themeMatches lc t) else acc) acc = acc := by
  induction ts with
  | nil => intro acc _; rfl
  | cons t rest ih =>
    intro acc h
    simp only [List.foldl_cons]
    rw [if_neg (by have := h t (List.mem_cons_self t rest); omega)]
    exact ih acc fun u hu => h u (List.mem_cons_of_mem t hu)

theorem foldBest_snd_lt (lc : String) (ts : List FallbackTheme) (X : Nat) :
    ∀ acc : String × Nat, acc.2 < X → (∀ t ∈ ts, themeMatches lc t < X) →
      (ts.foldl (fun acc t =>
        if themeMatches lc t > acc.2 then (t.name, themeMatches lc t) else acc) acc).2 < X := by
  induction ts with
  | nil => intro acc h _; exact h
  | cons t rest ih =>
    intro acc hacc h
    simp only [List.foldl_cons]
    by_cases hc : themeMatches lc t > acc.2
    · rw [if_pos hc]
      exact ih (t.name, themeMatches lc t) (h t (List.mem_cons_self t rest))
        fun u hu => h u (List.mem_cons_of_mem t hu)
    · rw [if_neg hc]
      exact ih acc hacc fun u hu => h u (List.mem_cons_of_mem t hu)

theorem join_chunks {α : Type} (k : Nat) :
    ∀ (M : Nat) (l : List α), l.length ≤ M * k →
      ((List.range M).map (fun b => (l.drop (b * k)).take k)).flatten = l := by
  intro M
  induction M with
  | zero =>
    intro l h
    simp only [Nat.zero_mul, Nat.le_zero, List.length_eq_zero] at h
    simp [h]
  | succ M ih =>
    intro l h
    rw [List.range_succ_eq_map, List.map_cons, List.flatten_cons, List.map_map]
    have h1 : (List.range M).map ((fun b => (l.drop (b * k)).take k) ∘ Nat.succ)
        = (List.range M).map (fun b => ((l.drop k).drop (b * k)).take k) := by
      apply List.map_congr_left
      intro b _
      simp only [Function.comp_apply]
      rw [List.drop_drop]
      congr 2
      have : Nat.succ b = b + 1 := rfl
      rw [this]
      ring
    have h2 : (l.drop k).length ≤ M * k := by
      rw [List.length_drop]
      have hs : Nat.succ M * k = M * k + k := Nat.succ_mul M k
      rw [hs] at h
      set a := M * k
      omega
    rw [h1, ih (l.drop k) h2]
    simp [List.take_append_drop]

theorem batchSize_pos (n : Nat) : 0 < batchSize n :=
  lt_of_lt_of_le (by norm_num) (le_max_left 50 ((n + maxBatches - 1) / maxBatches))

theorem le_actualBatches_mul (n : Nat) : n ≤ actualBatches n * batchSize n := by
  have hk : 0 < batchSize n := batchSize_pos n
  unfold actualBatches
  set k := batchSize n with hkdef
  rcases Nat.eq_zero_or_pos n with h0 | hn
  · simp [h0]
  · have hq : (n + k - 1) / k = (n - 1) / k + 1 := by
      have he : n + k - 1 = (n - 1) + k := by omega
      rw [he, Nat.add_div_right _ hk]
    rw [hq, Nat.add_mul, Nat.one_mul]
    have h2 : (n - 1) / k * k + (n - 1) % k = n - 1 := Nat.div_add_mod' (n - 1) k
    have hm : (n - 1) % k < k := Nat.mod_lt _ hk
    set a := (n - 1) / k * k
    set m := (n - 1) % k
    omega

theorem actualBatches_pred_mul_lt (n : Nat) (hn : 0 < n) :
    (actualBatches n - 1) * batchSize n < n := by
  have hk : 0 < batchSize n := batchSize_pos n
  unfold actualBatches
  set k := batchSize n with hkdef
  have hq : (n + k - 1) / k = (n - 1) / k + 1 := by
    have he : n + k - 1 = (n - 1) + k := by omega
    rw [he, Nat.add_div_right _ hk]
  rw [hq]
  simp only [Nat.add_sub_cancel]
  have h2 := Nat.div_mul_le_self (n - 1) k
  set a := (n - 1) / k * k
  omega

theorem add_nine_div_ten_eq_ceil (n : Nat) : (n + 9) / 10 = Nat.ceil ((n : ℚ) / 10) := by
  rcases Nat.eq_zero_or_pos n with h0 | hn
  · subst h0; simp
  · obtain ⟨m, hm⟩ : ∃ m, (n + 9) / 10 = m + 1 := ⟨(n + 9) / 10 - 1, by omega⟩
    rw [hm]
    symm
    rw [Nat.ceil_eq_iff (by omega)]
    constructor
    · simp only [Nat.add_sub_cancel]
      rw [lt_div_iff₀ (by norm_num : (0:ℚ) < 10)]
      exact_mod_cast (by omega : m * 10 < n)
    · rw [div_le_iff₀ (by norm_num : (0:ℚ) < 10)]
      exact_mod_cast (by omega : n ≤ (m + 1) * 10)

set_option maxRecDepth 10000

/-! ### Claim theorems -/

/-- C3: for every batch of N records whose classification response cannot
be parsed, the classifier emits exactly N classifications for that batch —
one per record, with `commentIndex` running over the batch's 1-based
global positions — each assigned to the first discovered theme (or the
synthetic `'Uncategorized'` theme if no theme exists) with confidence
0.5, so no batch is ever dropped. -/
theorem malformed_batch_emits_one_classification_per_record
    (rawText : String) (i : Nat) (batch : List String)
    (identifiedThemes : List IdentifiedTheme)
    (hparse : parseClassificationsPayload rawText = none) :
    (handleClassificationResponse rawText i batch identifiedThemes).length = batch.length ∧
    (∀ e ∈ handleClassificationResponse rawText i batch identifiedThemes,
      e.themeName = some (degradedThemeName identifiedThemes) ∧ e.confidence = some (1/2)) ∧
    (∀ j (hj : j < (handleClassificationResponse rawText i batch identifiedThemes).length),
      ((handleClassificationResponse rawText i batch identifiedThemes).get ⟨j, hj⟩).commentIndex
        = (i : Int) + (j : Int) + 1) ∧
    (identifiedThemes = [] → degradedThemeName identifiedThemes = "Uncategorized") ∧
    (∀ t ts, identifiedThemes = t :: ts → t.name ≠ "" →
      degradedThemeName identifiedThemes = t.name) := by
  have hh : handleClassificationResponse rawText i batch identifiedThemes
      = degradedBatchClassifications i batch identifiedThemes := by
    unfold handleClassificationResponse
    rw [hparse]
  refine ⟨?_, ?_, ?_, ?_, ?_⟩
  · rw [hh]; simp [degradedBatchClassifications]
  · intro e he
    rw [hh] at he
    unfold degradedBatchClassifications at he
    simp only [List.mem_map, List.mem_range] at he
    obtain ⟨b, _, rfl⟩ := he
    exact ⟨rfl, rfl⟩
  · intro j hj
    simp only [hh, degradedBatchClassifications, List.get_eq_getElem, List.getElem_map,
      List.getElem_range]
  · intro h; rw [h]; rfl
  · intro t ts h hne; rw [h]; simp [degradedThemeName, hne]

/-- C3 witness: a concrete unparsable payload over a 3-record batch
yields exactly 3 classifications. -/
theorem malformed_batch_emits_one_classification_per_record_witness :
    parseClassificationsPayload "garbage" = none ∧
    (handleClassificationResponse "garbage" 10 ["x", "y", "z"]
        [⟨"Service Quality", "sq", []⟩]).length = (["x", "y", "z"] : List String).length :=
  ⟨by decide, (malformed_batch_emits_one_classification_per_record "garbage" 10
      ["x", "y", "z"] [⟨"Service Quality", "sq", []⟩] (by decide)).1⟩

/-- C2 counterexample: a concrete truncated payload (no closing brace)
holding one complete entry.  The spec-modelled repair succeeds and
recovers that entry, yet the code synthesizes degraded fallback
classifications for the whole batch — it never attempts repair, so the
complete entry is not recovered. -/
theorem truncated_payload_repair_not_attempted_cex :
    (("\x7b\"classifications\": [\x7b\"commentIndex\": 1, \"themeName\": \"Service\", \"confidence\": 0.9\x7d, \x7b\"commentIndex\": 2" : String).data.getLast?
        ≠ some '\x7d') ∧
    (((repairTruncatedPayload "\x7b\"classifications\": [\x7b\"commentIndex\": 1, \"themeName\": \"Service\", \"confidence\": 0.9\x7d, \x7b\"commentIndex\": 2").bind
        parseClassificationsPayload).map
          (fun entries => entries.map (fun e => (e.commentIndex, e.themeName)))
      = some [((1 : Int), some "Service")]) ∧
    ((handleClassificationResponse
        "\x7b\"classifications\": [\x7b\"commentIndex\": 1, \"themeName\": \"Service\", \"confidence\": 0.9\x7d, \x7b\"commentIndex\": 2"
        0 ["the staff was great", "the pool was cold"]
        [⟨"Pricing", "about pricing", []⟩, ⟨"Service", "about service", []⟩]).map
          (fun e => (e.commentIndex, e.themeName))
      = [((1 : Int), some "Pricing"), ((2 : Int), some "Pricing")]) := by
  refine ⟨by decide, by decide, by decide⟩

/-- C2 (amended): for every batch whose raw classification payload cannot
be parsed — truncated or otherwise — the classifier performs no repair:
it immediately treats the response as malformed and synthesizes the
degraded fallback classifications for every record of the batch. -/
theorem unparsable_payload_degraded_without_repair
    (rawText : String) (i : Nat) (batch : List String)
    (identifiedThemes : List IdentifiedTheme)
    (hparse : parseClassificationsPayload rawText = none) :
    handleClassificationResponse rawText i batch identifiedThemes
      = degradedBatchClassifications i batch identifiedThemes := by
  unfold handleClassificationResponse
  rw [hparse]

/-- C2 witness: the amended no-repair behavior at a concrete unparsable
payload. -/
theorem unparsable_payload_degraded_without_repair_witness :
    parseClassificationsPayload "not json at all" = none ∧
    handleClassificationResponse "not json at all" 50 ["a", "b"]
        [⟨"Value and Pricing", "vp", []⟩]
      = degradedBatchClassifications 50 ["a", "b"] [⟨"Value and Pricing", "vp", []⟩] :=
  ⟨by decide, unparsable_payload_degraded_without_repair "not json at all" 50 ["a", "b"]
      [⟨"Value and Pricing", "vp", []⟩] (by decide)⟩

/-- C4: a batch whose first request fails with a rate-limit signal
(`'429'` or `'rate_limit_error'` in the error message) awaits a 60000 ms
cooldown and is retried exactly once; if the retry also fails (or its
payload is unparsable, which throws inside the retry block) the batch
receives the degraded classifications; any other first-request failure
degrades immediately, with no cooldown and no retry. -/
theorem rate_limit_retry_once_then_degrade
    (message : String) (retryAttempt : RequestOutcome) (i : Nat)
    (batch : List String) (identifiedThemes : List IdentifiedTheme) :
    (isRateLimitError message = true →
      (processBatch (.failure message) retryAttempt i batch identifiedThemes).cooldownsMs
          = [60000] ∧
      (processBatch (.failure message) retryAttempt i batch identifiedThemes).retried = true ∧
      (∀ m, retryAttempt = .failure m →
        (processBatch (.failure message) retryAttempt i batch identifiedThemes).classifications
          = degradedBatchClassifications i batch identifiedThemes) ∧
      (∀ raw, retryAttempt = .success raw → parseClassificationsPayload raw = none →
        (processBatch (.failure message) retryAttempt i batch identifiedThemes).classifications
          = degradedBatchClassifications i batch identifiedThemes)) ∧
    (isRateLimitError message = false →
      processBatch (.failure message) retryAttempt i batch identifiedThemes
        = ⟨degradedBatchClassifications i batch identifiedThemes, [], false⟩) ∧
    (degradedBatchClassifications i batch identifiedThemes).length = batch.length := by
  refine ⟨?_, ?_, ?_⟩
  · intro hrl
    refine ⟨?_, ?_, ?_, ?_⟩
    · cases retryAttempt with
      | success raw =>
        cases hp : parseClassificationsPayload raw <;> simp [processBatch, hrl, hp]
      | failure m => simp [processBatch, hrl]
    · cases retryAttempt with
      | success raw =>
        cases hp : parseClassificationsPayload raw <;> simp [processBatch, hrl, hp]
      | failure m => simp [processBatch, hrl]
    · intro m hm
      subst hm
      simp [processBatch, hrl]
    · intro raw hr hparse
      subst hr
      simp [processBatch, hrl, hparse]
  · intro hrl
    simp [processBatch, hrl]
  · simp [degradedBatchClassifications]

/-- C4 witness: a concrete rate-limited batch whose retry also fails. -/
theorem rate_limit_retry_once_then_degrade_witness :
    (processBatch (.failure "HTTP 429 too many requests") (.failure "rate_limit_error")
        0 ["a", "b"] [⟨"Service Quality", "sq", []⟩]).cooldownsMs = [60000] ∧
    (processBatch (.failure "HTTP 429 too many requests") (.failure "rate_limit_error")
        0 ["a", "b"] [⟨"Service Quality", "sq", []⟩]).classifications
      = degradedBatchClassifications 0 ["a", "b"] [⟨"Service Quality", "sq", []⟩] := by
  have h := rate_limit_retry_once_then_degrade "HTTP 429 too many requests"
    (.failure "rate_limit_error") 0 ["a", "b"] [⟨"Service Quality", "sq", []⟩]
  exact ⟨(h.1 (by decide)).1, (h.1 (by decide)).2.2.1 "rate_limit_error" rfl⟩

/-- C9: the group-level sentiment classification is the strictly largest
of the positive, negative and neutral member counts, and every tie for
the maximum (as well as a strict neutral maximum) yields neutral. -/
theorem group_sentiment_strict_majority
    (comparative : String → ℚ) (total : Nat) (enhanced : Bool) (index : Nat)
    (group : ThemeGroup) (c : SentimentCounts) (r : String)
    (hc : c = sentimentCountsOf (themeSentimentsOf comparative group.comments))
    (hr : r = (topicOfGroup comparative total enhanced index group).sentimentClassification) :
    (c.negative < c.positive ∧ c.neutral < c.positive → r = "positive") ∧
    (c.positive < c.negative ∧ c.neutral < c.negative → r = "negative") ∧
    (c.positive < c.neutral ∧ c.negative < c.neutral → r = "neutral") ∧
    (c.positive = c.negative ∧ c.neutral ≤ c.positive → r = "neutral") ∧
    (c.positive = c.neutral ∧ c.negative ≤ c.positive → r = "neutral") ∧
    (c.negative = c.neutral ∧ c.positive ≤ c.negative → r = "neutral") := by
  have hr2 : r = sentimentClassificationOf c := by rw [hr, hc]; rfl
  subst hr2
  refine ⟨?_, ?_, ?_, ?_, ?_, ?_⟩ <;> intro h <;>
    unfold sentimentClassificationOf <;> split_ifs <;>
    first | rfl | omega

/-- C9 witness: a concrete group with two positive members and one
negative member is classified positive. -/
theorem group_sentiment_strict_majority_witness :
    (topicOfGroup (fun _ => 0) 3 false 0
        ⟨"G", "g", [], [⟨some "great view", 0, 1⟩, ⟨some "love it", 1, 1⟩,
          ⟨some "awful", 2, 1⟩]⟩).sentimentClassification = "positive" :=
  (group_sentiment_strict_majority (fun _ => 0) 3 false 0
      ⟨"G", "g", [], [⟨some "great view", 0, 1⟩, ⟨some "love it", 1, 1⟩,
        ⟨some "awful", 2, 1⟩]⟩
      ⟨2, 1, 0⟩ _ (by decide) rfl).1 (by decide)

/-- C8 counterexample: `"great but expensive"` contains a positive
trigger word, yet the negative-trigger check runs first and classifies
it negative (even with a positive comparative score), refuting the claim
that a text containing a positive trigger word is classified positive. -/
theorem positive_trigger_overridden_by_negative_cex :
    (positiveTriggerWords.any (fun w =>
        strIncludes (toLowerCaseStr "great but expensive") w) = true) ∧
    classifyCommentSentiment "great but expensive" 1 ≠ "positive" ∧
    classifyCommentSentiment "great but expensive" 1 = "negative" :=
  ⟨by decide, by decide, by decide⟩

/-- C8 (amended): a text containing a negative trigger word is classified
negative regardless of the comparative score; a text containing a
positive trigger word and no negative trigger word is classified positive
regardless of the comparative score; a text with no trigger word is
bucketed by the comparative score at the ±0.1 thresholds; and the text
`"the room was expensive and the staff was rude"` is classified negative
for every comparative score. -/
theorem sentiment_override_rules (text : String) (comparative : ℚ) :
    (negativeTriggerWords.any (fun w => strIncludes (toLowerCaseStr text) w) = true →
      classifyCommentSentiment text comparative = "negative") ∧
    (negativeTriggerWords.any (fun w => strIncludes (toLowerCaseStr text) w) = false →
      positiveTriggerWords.any (fun w => strIncludes (toLowerCaseStr text) w) = true →
      classifyCommentSentiment text comparative = "positive") ∧
    (negativeTriggerWords.any (fun w => strIncludes (toLowerCaseStr text) w) = false →
      positiveTriggerWords.any (fun w => strIncludes (toLowerCaseStr text) w) = false →
      ((1/10 < comparative → classifyCommentSentiment text comparative = "positive") ∧
       (comparative < -(1/10) → classifyCommentSentiment text comparative = "negative") ∧
       (-(1/10) ≤ comparative → comparative ≤ 1/10 →
         classifyCommentSentiment text comparative = "neutral"))) ∧
    (∀ q : ℚ, classifyCommentSentiment "the room was expensive and the staff was rude" q
      = "negative") := by
  refine ⟨?_, ?_, ?_, ?_⟩
  · intro h
    simp [classifyCommentSentiment, h]
  · intro hn hp
    simp [classifyCommentSentiment, hn, hp]
  · intro hn hp
    refine ⟨?_, ?_, ?_⟩
    · intro hcmp
      simp only [classifyCommentSentiment]
      rw [if_neg (by simp [hn]), if_neg (by simp [hp]), if_pos hcmp]
    · intro hcmp
      have hngt : ¬ (1/10 : ℚ) < comparative := by linarith
      simp only [classifyCommentSentiment]
      rw [if_neg (by simp [hn]), if_neg (by simp [hp]), if_neg hngt, if_pos hcmp]
    · intro h1 h2
      have hngt : ¬ (1/10 : ℚ) < comparative := not_lt.mpr h2
      have hnlt : ¬ comparative < -(1/10 : ℚ) := not_lt.mpr h1
      simp only [classifyCommentSentiment]
      rw [if_neg (by simp [hn]), if_neg (by simp [hp]), if_neg hngt, if_neg hnlt]
  · intro q
    have h : negativeTriggerWords.any (fun w =>
        strIncludes (toLowerCaseStr "the room was expensive and the staff was rude") w)
        = true := by decide
    simp [classifyCommentSentiment, h]

/-- C8 witness: the negative-trigger rule at a concrete text and a
positive comparative score. -/
theorem sentiment_override_rules_witness :
    classifyCommentSentiment "awful day" 5 = "negative" :=
  (sentiment_override_rules "awful day" 5).1 (by decide)

/-- C6 counterexample: a fully processable corpus of 2501 records trips
the fatal oversized-corpus gate (`estimatedTokens = 2501 * 20 > 50000`),
which runs before the classification `try` and is caught only by the
outer 500-error handler — the run fails even though the external
capability is not configured, refuting the unconditional "the run does
not fail". -/
theorem oversized_corpus_fails_cex :
    runAnalysis false 2501 [] (fun _ => 0) (List.replicate 2501 "great pool")
      = .error "Dataset too large" := by
  simp only [runAnalysis, List.length_replicate]
  rw [if_pos (by norm_num)]

/-- C6 (amended): when the external classification capability is not
configured, a corpus that passes both fatal gates — the oversized-corpus
gate (`comments.length * 20 ≤ 50000`) and the processable-records gate —
runs to completion: the response carries the fallback-classified topics,
`metadata.aiEnhanced` is false, and every record is classified by the
fixed keyword table, so the volume sum over the returned topics equals
the number of records.  A larger corpus fails with the fatal
oversized-corpus error regardless of configuration. -/
theorem unconfigured_capability_runs_fallback
    (processedCount : Nat) (llmBranch : List Topic) (comparative : String → ℚ)
    (comments : List String) (hproc : 1 ≤ processedCount) :
    (comments.length * 20 ≤ 50000 →
      runAnalysis false processedCount llmBranch comparative comments
        = .ok ⟨cleanTopicsSorted (finalTopicsFallback comparative comments),
               comments.length, false⟩ ∧
      topicsVolume (cleanTopicsSorted (finalTopicsFallback comparative comments))
        = comments.length) ∧
    (50000 < comments.length * 20 →
      runAnalysis false processedCount llmBranch comparative comments
        = .error "Dataset too large") := by
  have hany : (finalTopicsFallback comparative comments).any (fun t => t.enhancedByAI)
      = false := by
    rw [List.any_eq_false]
    intro t ht
    unfold finalTopicsFallback at ht
    simp only [List.mem_map] at ht
    obtain ⟨p, _, rfl⟩ := ht
    simp [topicOfGroup]
  constructor
  · intro hsize
    constructor
    · simp only [runAnalysis]
      rw [if_neg (by omega), if_neg (by omega)]
      have h1 : (if (false : Bool) then llmBranch
          else finalTopicsFallback comparative comments)
          = finalTopicsFallback comparative comments := rfl
      rw [h1, any_sorted, hany]
    · rw [topicsVolume_sorted]
      unfold finalTopicsFallback
      rw [topicsVolume_enum_map, themeGroupsArray_volume_sum]
      exact volumes_fallbackGroupComments comments
  · intro hsize
    simp only [runAnalysis]
    rw [if_pos (by omega)]

/-- C6 witness: a concrete two-record corpus within the size gate and
with no configured capability runs to completion through the fallback
classifier. -/
theorem unconfigured_capability_runs_fallback_witness :
    runAnalysis false 2 [] (fun _ => 0) ["great pool", "the staff was rude"]
      = .ok ⟨cleanTopicsSorted (finalTopicsFallback (fun _ => 0)
               ["great pool", "the staff was rude"]),
             (["great pool", "the staff was rude"] : List String).length, false⟩ ∧
    topicsVolume (cleanTopicsSorted (finalTopicsFallback (fun _ => 0)
        ["great pool", "the staff was rude"]))
      = (["great pool", "the staff was rude"] : List String).length :=
  (unconfigured_capability_runs_fallback 2 [] (fun _ => 0)
    ["great pool", "the staff was rude"] (by norm_num)).1 (by decide)

theorem foldBest_first_argmax (lc : String) (pre post : List FallbackTheme)
    (t : FallbackTheme) (acc : String × Nat) (hacc : acc.2 < themeMatches lc t)
    (hpre : ∀ u ∈ pre, themeMatches lc u < themeMatches lc t)
    (hpost : ∀ u ∈ post, themeMatches lc u ≤ themeMatches lc t) :
    (pre ++ t :: post).foldl (fun acc u =>
        if themeMatches lc u > acc.2 then (u.name, themeMatches lc u) else acc) acc
      = (t.name, themeMatches lc t) := by
  rw [List.foldl_append, List.foldl_cons]
  have hlt : (pre.foldl (fun acc u =>
      if themeMatches lc u > acc.2 then (u.name, themeMatches lc u) else acc) acc).2
      < themeMatches lc t :=
    foldBest_snd_lt lc pre (themeMatches lc t) acc hacc hpre
  rw [if_pos hlt]
  exact foldBest_const_of_le lc post (t.name, themeMatches lc t) hpost

/-- C7: the fallback classifier lowercases the record text, counts the
table keywords occurring in it per theme, assigns `('Other', 0.3)` when
no keyword matches anywhere, and otherwise assigns the first theme
attaining the strict maximum match count (later ties keep the earlier
theme) with confidence 0.7; it is deterministic — equal inputs yield
equal outputs. -/
theorem fallback_classifier_strict_max (comment : String) :
    ((∀ t ∈ fallbackThemes, themeMatches (toLowerCaseStr comment) t = 0) →
      classifyCommentFallback comment = ("Other", 3/10)) ∧
    (∀ (pre post : List FallbackTheme) (t : FallbackTheme),
      fallbackThemes = pre ++ t :: post →
      0 < themeMatches (toLowerCaseStr comment) t →
      (∀ u ∈ pre, themeMatches (toLowerCaseStr comment) u
        < themeMatches (toLowerCaseStr comment) t) →
      (∀ u ∈ post, themeMatches (toLowerCaseStr comment) u
        ≤ themeMatches (toLowerCaseStr comment) t) →
      classifyCommentFallback comment = (t.name, 7/10)) ∧
    (∀ c : String, c = comment →
      classifyCommentFallback c = classifyCommentFallback comment) := by
  refine ⟨?_, ?_, fun c hc => by rw [hc]⟩
  · intro h
    have hb : bestFallbackMatch (toLowerCaseStr comment) = ("Other", 0) := by
      unfold bestFallbackMatch
      exact foldBest_const_of_le (toLowerCaseStr comment) fallbackThemes ("Other", 0)
        (fun t ht => le_of_eq (h t ht))
    simp [classifyCommentFallback, hb]
  · intro pre post t heq hpos hpre hpost
    have hb : bestFallbackMatch (toLowerCaseStr comment)
        = (t.name, themeMatches (toLowerCaseStr comment) t) := by
      unfold bestFallbackMatch
      rw [heq]
      exact foldBest_first_argmax (toLowerCaseStr comment) pre post t ("Other", 0)
        hpos hpre hpost
    simp [classifyCommentFallback, hb, hpos]

/-- C7 witness: a concrete record text whose strict maximum is the last
table theme. -/
theorem fallback_classifier_strict_max_witness :
    classifyCommentFallback "i recommend this overall" = ("General Feedback", 7/10) :=
  (fallback_classifier_strict_max "i recommend this overall").2.1
    (List.take 4 fallbackThemes) []
    ⟨"General Feedback", ["overall", "general", "think", "feel", "opinion",
      "recommend", "suggest"]⟩
    (by decide) (by decide) (by decide) (by decide)

theorem classificationBatchSteps_get (comments : List String) (j : Nat)
    (hj : j < (classificationBatchSteps comments).length) :
    (classificationBatchSteps comments).get ⟨j, hj⟩
      = ⟨if j * batchSize comments.length > 0 then some 10000 else none,
         (comments.drop (j * batchSize comments.length)).take (batchSize comments.length)⟩ := by
  simp only [classificationBatchSteps, List.get_eq_getElem, List.getElem_map,
    List.getElem_range]

theorem classificationBatchSteps_length (comments : List String) :
    (classificationBatchSteps comments).length = actualBatches comments.length := by
  simp [classificationBatchSteps]

/-- C5: the batch size is `max(50, ceil(totalRecords / 10))` (the
ceiling taken over the rationals); the batching loop's slices
concatenate back to the corpus in original order; every batch holds at
most batchSize records and every batch other than the last exactly
batchSize; and the 10000 ms inter-batch delay is awaited before every
batch except the first. -/
theorem batching_partition_and_throttle (comments : List String) :
    batchSize comments.length = max 50 (Nat.ceil ((comments.length : ℚ) / 10)) ∧
    ((classificationBatchSteps comments).map (fun s => s.batch)).flatten = comments ∧
    (∀ j (hj : j < (classificationBatchSteps comments).length),
      ((classificationBatchSteps comments).get ⟨j, hj⟩).batch.length
        ≤ batchSize comments.length) ∧
    (∀ j (hj : j < (classificationBatchSteps comments).length),
      j + 1 < (classificationBatchSteps comments).length →
      ((classificationBatchSteps comments).get ⟨j, hj⟩).batch.length
        = batchSize comments.length) ∧
    (∀ j (hj : j < (classificationBatchSteps comments).length),
      ((classificationBatchSteps comments).get ⟨j, hj⟩).delayBeforeMs
        = if j = 0 then none else some 10000) := by
  refine ⟨?_, ?_, ?_, ?_, ?_⟩
  · unfold batchSize maxBatches
    congr 1
    rw [show comments.length + 10 - 1 = comments.length + 9 from by omega]
    exact add_nine_div_ten_eq_ceil comments.length
  · unfold classificationBatchSteps
    rw [List.map_map]
    show ((List.range (actualBatches comments.length)).map (fun b =>
      (comments.drop (b * batchSize comments.length)).take
        (batchSize comments.length))).flatten = comments
    exact join_chunks (batchSize comments.length) (actualBatches comments.length)
      comments (le_actualBatches_mul comments.length)
  · intro j hj
    rw [classificationBatchSteps_get]
    simp only [List.length_take, List.length_drop]
    exact min_le_left _ _
  · intro j hj hlast
    rw [classificationBatchSteps_get]
    simp only [List.length_take, List.length_drop]
    rw [classificationBatchSteps_length] at hlast
    have hn : 0 < comments.length := by
      by_contra h0
      have hz : comments.length = 0 := by omega
      rw [hz] at hlast
      have hab : actualBatches 0 = 0 := by decide
      omega
    have h1 : j + 1 ≤ actualBatches comments.length - 1 := by omega
    have h2 : (j + 1) * batchSize comments.length
        ≤ (actualBatches comments.length - 1) * batchSize comments.length :=
      Nat.mul_le_mul_right _ h1
    have h3 := actualBatches_pred_mul_lt comments.length hn
    have hmul : (j + 1) * batchSize comments.length ≤ comments.length :=
      le_of_lt (lt_of_le_of_lt h2 h3)
    have hsucc : (j + 1) * batchSize comments.length
        = j * batchSize comments.length + batchSize comments.length := by ring
    rw [hsucc] at hmul
    apply Nat.min_eq_left
    set a := j * batchSize comments.length
    omega
  · intro j hj
    rw [classificationBatchSteps_get]
    by_cases hz : j = 0
    · subst hz
      simp
    · have hpos : 0 < j * batchSize comments.length :=
        Nat.mul_pos (by omega) (batchSize_pos comments.length)
      rw [if_pos hpos, if_neg hz]

/-- C5 witness: a 55-record corpus yields batch size 50, exactly two
batches of 50 and 5 records, no delay before the first batch and one
10000 ms delay before the second, and the two slices concatenate back
to the corpus. -/
theorem batching_partition_and_throttle_witness :
    batchSize (List.replicate 55 "x").length = 50 ∧
    (classificationBatchSteps (List.replicate 55 "x")).length = 2 ∧
    ((classificationBatchSteps (List.replicate 55 "x")).map (fun s => s.batch.length))
      = [50, 5] ∧
    ((classificationBatchSteps (List.replicate 55 "x")).map (fun s => s.delayBeforeMs))
      = [none, some 10000] ∧
    ((classificationBatchSteps (List.replicate 55 "x")).get ⟨1, by decide⟩).delayBeforeMs
      = some 10000 ∧
    ((classificationBatchSteps (List.replicate 55 "x")).map (fun s => s.batch)).flatten
      = List.replicate 55 "x" :=
  ⟨by decide, by decide, by decide, by decide,
   by simpa using (batching_partition_and_throttle (List.replicate 55 "x")).2.2.2.2 1 (by decide),
   (batching_partition_and_throttle (List.replicate 55 "x")).2.1⟩
